import Mathlib

set_option autoImplicit false

/-!
Shallow embedding of the offline-caching service worker of the
local-finance repository (source file sw.js), together with theorems
checking the natural-language specification against it.

The cache universe is modelled as an association list from partition
name to partition, in creation order; a partition is an association
list from request key (URL string) to a stored response snapshot.
The platform fetch is modelled as a function from URL to either a
response or a network error.
-/

namespace SW

/-- A response snapshot: status code, status text and body. -/
structure Response where
  status : Nat
  statusText : String
  body : String
  deriving DecidableEq, Repr

/-- The platform predicate response.ok: status in the 2xx range. -/
def Response.ok (r : Response) : Bool :=
  decide (200 ≤ r.status) && decide (r.status ≤ 299)

/-- Outcome of a platform fetch: a response, or a network error (rejection). -/
abbrev Net := String → Except String Response

/-- A cache partition: entries from request key to response, in insertion order. -/
abbrev Partition := List (String × Response)

/-- The cache universe: named partitions in creation order. -/
abbrev CacheStorage := List (String × Partition)

/-- An intercepted request: URL, method, and the origin, hostname and
destination attributes the platform derives from it. -/
structure Request where
  url : String
  method : String
  origin : String
  hostname : String
  destination : String
  deriving DecidableEq, Repr

/-- Single-partition lookup (cache.match): first entry with the key. -/
def partitionMatch : Partition → String → Option Response
  | [], _ => none
  | (k, r) :: rest, key => if k = key then some r else partitionMatch rest key

/-- Whole-universe lookup (caches.match): search every partition in
creation order, first hit wins. -/
def cachesMatch : CacheStorage → String → Option Response
  | [], _ => none
  | (_, p) :: rest, key =>
    match partitionMatch p key with
    | some r => some r
    | none => cachesMatch rest key

/-- Find a partition by name. -/
def lookupPartition : CacheStorage → String → Option Partition
  | [], _ => none
  | (n, p) :: rest, name => if n = name then some p else lookupPartition rest name

/-- Whether a partition with the given name exists. -/
def hasPartition (cs : CacheStorage) (name : String) : Bool :=
  (lookupPartition cs name).isSome

/-- caches.open: idempotent; creates an empty partition at the end when absent. -/
def cacheOpen (cs : CacheStorage) (name : String) : CacheStorage :=
  if hasPartition cs name then cs else cs ++ [(name, [])]

/-- Lookup of a key inside the named partition only. -/
def cacheMatchIn (cs : CacheStorage) (name key : String) : Option Response :=
  match lookupPartition cs name with
  | some p => partitionMatch p key
  | none => none

/-- cache.put on one partition: whole-value replace of the entry with the
same key, else append. -/
def partitionPut : Partition → String → Response → Partition
  | [], key, r => [(key, r)]
  | (k, r0) :: rest, key, r =>
    if k = key then (key, r) :: rest else (k, r0) :: partitionPut rest key r

/-- cache.put addressed through the universe by partition name; the source
always opens the partition before putting, so an absent name is created. -/
def cachePut : CacheStorage → String → String → Response → CacheStorage
  | [], name, key, r => [(name, [(key, r)])]
  | (n, p) :: rest, name, key, r =>
    if n = name then (n, partitionPut p key r) :: rest
    else (n, p) :: cachePut rest name key r

/-- Constant CACHE_NAME of sw.js. -/
def CACHE_NAME : String := "finance-dashboard-v3.0.0"

/-- Constant STATIC_CACHE_NAME of sw.js. -/
def STATIC_CACHE_NAME : String := "finance-static-v3.0.0"

/-- Constant DYNAMIC_CACHE_NAME of sw.js. -/
def DYNAMIC_CACHE_NAME : String := "finance-dynamic-v3.0.0"

/-- Constant STATIC_FILES of sw.js: local assets first, then CDN resources. -/
def STATIC_FILES : List String :=
  ["/",
   "/index.html",
   "/manifest.json",
   "https://cdnjs.cloudflare.com/ajax/libs/pdf.js/3.11.174/pdf.min.js",
   "https://cdnjs.cloudflare.com/ajax/libs/Chart.js/4.4.0/chart.umd.js",
   "https://cdnjs.cloudflare.com/ajax/libs/PapaParse/5.4.1/papaparse.min.js",
   "https://cdnjs.cloudflare.com/ajax/libs/d3/7.8.5/d3.min.js",
   "https://cdnjs.cloudflare.com/ajax/libs/fuse.js/6.6.2/fuse.min.js",
   "https://cdn.jsdelivr.net/npm/@tensorflow/tfjs@4.10.0/dist/tf.min.js",
   "https://unpkg.com/tesseract.js@4.0.2/dist/tesseract.min.js",
   "https://cdn.jsdelivr.net/npm/d3-sankey@0.12.3/dist/d3-sankey.min.js",
   "https://cdnjs.cloudflare.com/ajax/libs/jspdf/2.5.1/jspdf.umd.min.js",
   "https://cdnjs.cloudflare.com/ajax/libs/html2canvas/1.4.1/html2canvas.min.js"]

/-- The synthesized offline response of the strategies: status 503 with
fixed status text. -/
def offlineResponse : Response :=
  { status := 503
    statusText := "Service Unavailable"
    body := "Offline - Content not available" }

/-- Result of running a strategy: the response delivered to the caller
(none models a promise resolved with undefined), the cache universe after
all side effects settle, and the list of network fetches issued. -/
structure StratResult where
  response : Option Response
  store : CacheStorage
  fetched : List String
  deriving DecidableEq, Repr

/-- cacheFirstStrategy of sw.js: try caches.match over the whole universe;
on miss fetch, caching ok responses into the static partition; on network
error fall back to the cached index document for document destinations,
else the synthesized 503. -/
def cacheFirstStrategy (net : Net) (cs : CacheStorage) (req : Request) : StratResult :=
  match cachesMatch cs req.url with
  | some r => ⟨some r, cs, []⟩
  | none =>
    match net req.url with
    | .ok nr =>
      if nr.ok then
        ⟨some nr, cachePut (cacheOpen cs STATIC_CACHE_NAME) STATIC_CACHE_NAME req.url nr,
         [req.url]⟩
      else ⟨some nr, cs, [req.url]⟩
    | .error _ =>
      if req.destination = "document" then ⟨cachesMatch cs ("/index.html"), cs, [req.url]⟩
      else ⟨some offlineResponse, cs, [req.url]⟩

/-- networkFirstStrategy of sw.js: fetch, caching ok responses into the
dynamic partition; on network error fall back to caches.match over the
whole universe, else the synthesized 503. -/
def networkFirstStrategy (net : Net) (cs : CacheStorage) (req : Request) : StratResult :=
  match net req.url with
  | .ok nr =>
    if nr.ok then
      ⟨some nr, cachePut (cacheOpen cs DYNAMIC_CACHE_NAME) DYNAMIC_CACHE_NAME req.url nr,
       [req.url]⟩
    else ⟨some nr, cs, [req.url]⟩
  | .error _ =>
    match cachesMatch cs req.url with
    | some c => ⟨some c, cs, [req.url]⟩
    | none => ⟨some offlineResponse, cs, [req.url]⟩

/-- staleWhileRevalidateStrategy of sw.js: open the dynamic partition and
look the key up there; a fetch is always issued, and an ok network
response overwrites the entry; a cached entry is returned immediately,
otherwise the caller receives the eventual network outcome, a rejection
being swallowed into the (absent) cached value. -/
def staleWhileRevalidateStrategy (net : Net) (cs : CacheStorage) (req : Request) :
    StratResult :=
  let cs0 := cacheOpen cs DYNAMIC_CACHE_NAME
  let cached := cacheMatchIn cs0 DYNAMIC_CACHE_NAME req.url
  match net req.url with
  | .ok nr =>
    let cs1 := if nr.ok then cachePut cs0 DYNAMIC_CACHE_NAME req.url nr else cs0
    ⟨(match cached with | some c => some c | none => some nr), cs1, [req.url]⟩
  | .error _ => ⟨cached, cs0, [req.url]⟩

/-- Character-list prefix test used to embed the prefix and substring
checks of String.prototype.startsWith and String.prototype.includes. -/
def prefixChars : List Char → List Char → Bool
  | [], _ => true
  | _ :: _, [] => false
  | c :: cs, d :: ds => if c = d then prefixChars cs ds else false

/-- String.prototype.startsWith. -/
def strStarts (s pre : String) : Bool :=
  prefixChars pre.toList s.toList

/-- Character-list infix test. -/
def infixChars (sub : List Char) : List Char → Bool
  | [] => prefixChars sub []
  | d :: ds => prefixChars sub (d :: ds) || infixChars sub ds

/-- String.prototype.includes as used by isCDNResource. -/
def strIncludes (s sub : String) : Bool :=
  infixChars sub.toList s.toList

/-- The cdnHosts allow-list of sw.js. -/
def cdnHosts : List String :=
  ["cdnjs.cloudflare.com",
   "cdn.jsdelivr.net",
   "unpkg.com",
   "fonts.googleapis.com",
   "fonts.gstatic.com"]

/-- isCDNResource of sw.js: some allow-listed host is a substring of the
hostname. -/
def isCDNResource (hostname : String) : Bool :=
  cdnHosts.any (fun host => strIncludes hostname host)

/-- Outcome of the fetch event listener: either no interception at all, or
a response delivered through event.respondWith. -/
inductive FetchOutcome where
  | passthrough
  | responded (r : Option Response)
  deriving DecidableEq, Repr

/-- The fetch event listener of sw.js: skip non-GET and non-http(s)
requests, then dispatch by origin classification. Returns the outcome,
the cache universe after the handling episode, and the fetches issued. -/
def handleFetch (selfOrigin : String) (net : Net) (cs : CacheStorage) (req : Request) :
    FetchOutcome × CacheStorage × List String :=
  if req.method = "GET" then
    if strStarts req.url ("http") then
      if req.origin = selfOrigin then
        let r := cacheFirstStrategy net cs req
        (.responded r.response, r.store, r.fetched)
      else if isCDNResource req.hostname then
        let r := staleWhileRevalidateStrategy net cs req
        (.responded r.response, r.store, r.fetched)
      else
        let r := networkFirstStrategy net cs req
        (.responded r.response, r.store, r.fetched)
    else (.passthrough, cs, [])
  else (.passthrough, cs, [])

/-- The filter predicate of the activate cleanup: a name is deleted when it
starts with the finance- prefix and is neither current partition name. -/
def isStaleName (n : String) : Bool :=
  strStarts n ("finance-") && !(n == STATIC_CACHE_NAME) && !(n == DYNAMIC_CACHE_NAME)

/-- The names deleted by the activate handler, given caches.keys(). -/
def activateDeleted (names : List String) : List String :=
  names.filter isStaleName

/-- The cache universe surviving activation. -/
def activateRun (cs : CacheStorage) : CacheStorage :=
  cs.filter (fun c => !(isStaleName c.1))

/-- The three local assets cached through cache.addAll during install. -/
def basicFiles : List String := STATIC_FILES.take 3

/-- The CDN resources cached best-effort during install. -/
def cdnFiles : List String := STATIC_FILES.drop 3

/-- Whether a fetch of the URL resolves with an ok response. -/
def fetchedOk (net : Net) (u : String) : Bool :=
  match net u with
  | .ok r => r.ok
  | .error _ => false

/-- cache.addAll: fetch every URL; the whole operation rejects when any
fetch rejects or any response is not ok, else it yields all pairs. -/
def addAllResult (net : Net) : List String → Except String (List (String × Response))
  | [] => .ok []
  | u :: rest =>
    match net u with
    | .error e => .error e
    | .ok r =>
      if r.ok then
        match addAllResult net rest with
        | .ok es => .ok ((u, r) :: es)
        | .error e => .error e
      else .error u

/-- The best-effort CDN phase of install: each fetch that resolves ok is
put into the dynamic partition; rejections and non-ok responses are
skipped. -/
def installCdnPhase (net : Net) (cs : CacheStorage) : CacheStorage :=
  cdnFiles.foldl
    (fun acc u =>
      match net u with
      | .ok r => if r.ok then cachePut acc DYNAMIC_CACHE_NAME u r else acc
      | .error _ => acc)
    cs

/-- The install handler: open both partitions, run the best-effort CDN
phase into the dynamic partition and cache.addAll of the local assets into
the static partition; skipWaiting (the returned flag) is signaled only
when addAll resolved. -/
def installRun (net : Net) (cs : CacheStorage) : CacheStorage × Bool :=
  let cs1 := cacheOpen (cacheOpen cs STATIC_CACHE_NAME) DYNAMIC_CACHE_NAME
  let cs2 := installCdnPhase net cs1
  match addAllResult net basicFiles with
  | .ok es => (es.foldl (fun acc e => cachePut acc STATIC_CACHE_NAME e.1 e.2) cs2, true)
  | .error _ => (cs2, false)

/-- A message posted to a foreground client. -/
structure ClientMessage where
  mtype : String
  count : Nat
  deriving DecidableEq, Repr

/-- syncTransactions of sw.js, parameterized by the abstract pending-record
retrieval contract and by the connected clients: messages are posted only
inside the branch guarded by a positive pending count. -/
def syncTransactions {α : Type} (pending : List α) (clients : List String) :
    List (String × ClientMessage) :=
  if pending.length > 0 then
    clients.map (fun c => (c, ⟨"SYNC_COMPLETE", pending.length⟩))
  else []

/-- Total entry count over all partitions, accumulated the way the
getCacheStatus loop does. -/
def totalEntries (cs : CacheStorage) : Nat :=
  cs.foldl (fun acc c => acc + c.2.length) 0

/-- The reply getCacheStatus delivers through the message port: either the
status record or an error envelope. -/
inductive StatusReply where
  | status (caches size : Nat) (lastUpdated : String)
  | failure (msg : String)
  deriving DecidableEq, Repr

/-- getCacheStatus of sw.js: counts partitions and sums entry counts;
an internal failure (modelled as a failing caches.keys) is caught and
returned as an error envelope instead of thrown. -/
def getCacheStatus (keysResult : Except String CacheStorage) (now : String) : StatusReply :=
  match keysResult with
  | .ok cs => .status cs.length (totalEntries cs) now
  | .error e => .failure e

/-- Apply a list of (partition, key, response) writes in order. -/
def applyWrites (cs : CacheStorage) : List (String × String × Response) → CacheStorage
  | [] => cs
  | w :: ws => applyWrites (cachePut cs w.1 w.2.1 w.2.2) ws

/-- Whether the named partition holds an entry for the key. -/
def entryPresent (cs : CacheStorage) (name key : String) : Bool :=
  (cacheMatchIn cs name key).isSome

/-! Concrete fixtures used by counterexamples and witnesses. -/

/-- A 200 response standing for a previously stored snapshot. -/
def staleResp : Response := ⟨200, "OK", "stale"⟩

/-- A 200 response standing for a fresh network result. -/
def freshResp : Response := ⟨200, "OK", "fresh"⟩

/-- The application origin used in fixtures. -/
def appOrigin : String := "https://app.example"

/-- A same-origin GET request for a key the foreground cached into the
dynamic partition. -/
def c1Req : Request :=
  ⟨"https://app.example/transaction-t1", "GET", "https://app.example", "app.example", ""⟩

/-- A universe whose static partition is empty while the dynamic partition
holds an entry for the key of c1Req. -/
def c1Store : CacheStorage :=
  [(STATIC_CACHE_NAME, []),
   (DYNAMIC_CACHE_NAME, [("https://app.example/transaction-t1", staleResp)])]

/-- A network that always resolves with a fresh ok response. -/
def okNet : Net := fun _ => .ok freshResp

/-- A network that always rejects. -/
def downNet : Net := fun _ => .error "network down"

/-- A GET request to an allow-listed CDN host. -/
def c2Req : Request :=
  ⟨"https://cdnjs.cloudflare.com/ajax/libs/d3/7.8.5/d3.min.js", "GET",
   "https://cdnjs.cloudflare.com", "cdnjs.cloudflare.com", "script"⟩

/-- A universe whose dynamic partition holds an entry for the key of c2Req. -/
def c2Store : CacheStorage :=
  [(DYNAMIC_CACHE_NAME,
    [("https://cdnjs.cloudflare.com/ajax/libs/d3/7.8.5/d3.min.js", staleResp)])]

/-- A universe whose dynamic partition exists but holds no entry. -/
def c3Store : CacheStorage := [(DYNAMIC_CACHE_NAME, [])]

/-- A GET request to an external non-CDN API origin. -/
def c4Req : Request :=
  ⟨"https://api.example/data", "GET", "https://api.example", "api.example", ""⟩

/-- A universe where only the static partition holds an entry for the key
of c4Req; the dynamic partition is empty. -/
def c4Store : CacheStorage :=
  [(STATIC_CACHE_NAME, [("https://api.example/data", staleResp)]),
   (DYNAMIC_CACHE_NAME, [])]

/-- A network failing exactly on the first local asset of the install list. -/
def badBasicNet : Net := fun u => if u = "/" then .error "offline" else .ok freshResp

/-- A network failing exactly on the https CDN resources of the install
list while the three local assets resolve ok. -/
def badCdnNet : Net :=
  fun u => if strStarts u ("https://") then .error "offline" else .ok freshResp

/-- A non-GET same-origin request. -/
def c7Req : Request :=
  ⟨"https://app.example/save", "POST", "https://app.example", "app.example", ""⟩

/-- Two distinct writes into two partitions. -/
def c9Writes : List (String × String × Response) :=
  [(STATIC_CACHE_NAME, "/a", staleResp), (DYNAMIC_CACHE_NAME, "/b", freshResp)]

/-- A universe where only the static partition holds an entry for the key
of c10Req. -/
def c10Store : CacheStorage :=
  [(STATIC_CACHE_NAME, [("https://feeds.example/rates", staleResp)])]

/-- A GET request to an external non-CDN origin used for the network-first
fallback witness. -/
def c10Req : Request :=
  ⟨"https://feeds.example/rates", "GET", "https://feeds.example", "feeds.example", ""⟩

/-! Helper lemmas about the cache universe. -/

theorem partitionMatch_put_self (p : Partition) (k : String) (r : Response) :
    partitionMatch (partitionPut p k r) k = some r := by
  induction p with
  | nil => simp [partitionPut, partitionMatch]
  | cons e rest ih =>
    obtain ⟨k0, r0⟩ := e
    by_cases h : k0 = k
    · simp [partitionPut, h, partitionMatch]
    · simp [partitionPut, h, partitionMatch, ih]

theorem partitionMatch_put_isSome (p : Partition) (k k2 : String) (r : Response) :
    (partitionMatch (partitionPut p k r) k2).isSome
      = ((partitionMatch p k2).isSome || (k = k2)) := by
  induction p with
  | nil =>
    by_cases h : k = k2 <;> simp [partitionPut, partitionMatch, h]
  | cons e rest ih =>
    obtain ⟨k0, r0⟩ := e
    by_cases h : k0 = k
    · subst h
      by_cases h2 : k0 = k2
      · subst h2; simp [partitionPut, partitionMatch]
      · simp [partitionPut, partitionMatch, h2]
    · by_cases h2 : k0 = k2
      · have h3 : ¬ (k2 = k) := by rw [← h2]; exact h
        simp [partitionPut, h, partitionMatch, h2, h3]
      · simp [partitionPut, h, partitionMatch, h2, ih]

theorem partitionPut_length (p : Partition) (k : String) (r : Response) :
    (partitionPut p k r).length
      = p.length + (if (partitionMatch p k).isSome then 0 else 1) := by
  induction p with
  | nil => simp [partitionPut, partitionMatch]
  | cons e rest ih =>
    obtain ⟨k0, r0⟩ := e
    by_cases h : k0 = k
    · simp [partitionPut, h, partitionMatch]
    · simp [partitionPut, h, partitionMatch, ih]
      omega

theorem lookupPartition_append (cs ds : CacheStorage) (n : String) :
    lookupPartition (cs ++ ds) n
      = (match lookupPartition cs n with
         | some p => some p
         | none => lookupPartition ds n) := by
  induction cs with
  | nil => simp [lookupPartition]
  | cons c rest ih =>
    obtain ⟨n0, p0⟩ := c
    by_cases h : n0 = n
    · simp [lookupPartition, h]
    · simp [lookupPartition, h, ih]

theorem lookupPartition_none_of_not_has {cs : CacheStorage} {n : String}
    (h : hasPartition cs n = false) : lookupPartition cs n = none := by
  unfold hasPartition at h
  cases h0 : lookupPartition cs n with
  | none => rfl
  | some p => rw [h0] at h; simp at h

theorem hasPartition_of_matchIn {cs : CacheStorage} {n k : String} {c : Response}
    (h : cacheMatchIn cs n k = some c) : hasPartition cs n = true := by
  unfold cacheMatchIn at h
  unfold hasPartition
  cases h0 : lookupPartition cs n with
  | none => rw [h0] at h; simp at h
  | some p => simp

theorem cacheOpen_of_has {cs : CacheStorage} {n : String}
    (h : hasPartition cs n = true) : cacheOpen cs n = cs := by
  simp [cacheOpen, h]

theorem cacheMatchIn_open (cs : CacheStorage) (n k : String) :
    cacheMatchIn (cacheOpen cs n) n k = cacheMatchIn cs n k := by
  by_cases h : hasPartition cs n
  · simp [cacheOpen, h]
  · have h0 : lookupPartition cs n = none :=
      lookupPartition_none_of_not_has (by simpa using h)
    simp only [cacheOpen, h, if_neg, Bool.false_eq_true, not_false_iff, if_false]
    unfold cacheMatchIn
    rw [lookupPartition_append, h0]
    simp [lookupPartition, partitionMatch]

theorem cacheMatchIn_cachePut_self (cs : CacheStorage) (n k : String) (r : Response) :
    cacheMatchIn (cachePut cs n k r) n k = some r := by
  induction cs with
  | nil => simp [cachePut, cacheMatchIn, lookupPartition, partitionMatch]
  | cons c rest ih =>
    obtain ⟨n0, p0⟩ := c
    by_cases h : n0 = n
    · simp [cachePut, h, cacheMatchIn, lookupPartition, partitionMatch_put_self]
    · simpa [cachePut, h, cacheMatchIn, lookupPartition] using ih

theorem entryPresent_cachePut (cs : CacheStorage) (n k n2 k2 : String) (r : Response) :
    entryPresent (cachePut cs n k r) n2 k2
      = (entryPresent cs n2 k2 || (decide (n = n2) && decide (k = k2))) := by
  induction cs with
  | nil =>
    by_cases h : n = n2
    · by_cases h2 : k = k2 <;>
        simp [cachePut, entryPresent, cacheMatchIn, lookupPartition, partitionMatch, h, h2]
    · simp [cachePut, entryPresent, cacheMatchIn, lookupPartition, partitionMatch, h]
  | cons c rest ih =>
    obtain ⟨n0, p0⟩ := c
    by_cases h : n0 = n
    · subst h
      by_cases h2 : n0 = n2
      · subst h2
        simp [cachePut, entryPresent, cacheMatchIn, lookupPartition,
          partitionMatch_put_isSome]
      · simp [cachePut, entryPresent, cacheMatchIn, lookupPartition, h2,
          fun hh => h2 hh]
    · by_cases h2 : n0 = n2
      · subst h2
        have h3 : ¬ (n = n0) := fun hh => h (hh.symm)
        simp [cachePut, entryPresent, cacheMatchIn, lookupPartition, h, h3]
      · have hl : entryPresent ((n0, p0) :: cachePut rest n k r) n2 k2
            = entryPresent (cachePut rest n k r) n2 k2 := by
          simp [entryPresent, cacheMatchIn, lookupPartition, h2]
        have hr : entryPresent ((n0, p0) :: rest) n2 k2 = entryPresent rest n2 k2 := by
          simp [entryPresent, cacheMatchIn, lookupPartition, h2]
        simp only [cachePut, if_neg h, hl, hr, ih]

theorem foldl_entries (cs : CacheStorage) (a : Nat) :
    cs.foldl (fun acc c => acc + c.2.length) a = a + totalEntries cs := by
  induction cs generalizing a with
  | nil => simp [totalEntries]
  | cons c rest ih =>
    have h1 : totalEntries (c :: rest) = c.2.length + totalEntries rest := by
      show List.foldl _ (0 + c.2.length) rest = _
      rw [ih]
      omega
    simp only [List.foldl_cons, ih, h1]
    omega

theorem totalEntries_cons (c : String × Partition) (rest : CacheStorage) :
    totalEntries (c :: rest) = c.2.length + totalEntries rest := by
  show List.foldl _ (0 + c.2.length) rest = _
  rw [foldl_entries]
  omega

theorem totalEntries_cachePut (cs : CacheStorage) (n k : String) (r : Response) :
    totalEntries (cachePut cs n k r)
      = totalEntries cs + (if entryPresent cs n k then 0 else 1) := by
  induction cs with
  | nil =>
    simp [cachePut, totalEntries, entryPresent, cacheMatchIn, lookupPartition]
  | cons c rest ih =>
    obtain ⟨n0, p0⟩ := c
    by_cases h : n0 = n
    · subst h
      rw [cachePut, if_pos rfl, totalEntries_cons, totalEntries_cons,
        partitionPut_length]
      have hp : entryPresent ((n0, p0) :: rest) n0 k = (partitionMatch p0 k).isSome := by
        simp [entryPresent, cacheMatchIn, lookupPartition]
      rw [hp]
      by_cases h2 : (partitionMatch p0 k).isSome
      · simp [h2]
      · simp [h2]
        try omega
    · rw [cachePut, if_neg h, totalEntries_cons, totalEntries_cons, ih]
      have hp : entryPresent ((n0, p0) :: rest) n k = entryPresent rest n k := by
        simp [entryPresent, cacheMatchIn, lookupPartition, fun hh => h hh]
      rw [hp]
      omega

theorem totalEntries_applyWrites (ws : List (String × String × Response)) :
    ∀ cs : CacheStorage,
      (∀ w ∈ ws, entryPresent cs w.1 w.2.1 = false) →
      ws.Pairwise (fun a b => a.1 ≠ b.1 ∨ a.2.1 ≠ b.2.1) →
      totalEntries (applyWrites cs ws) = totalEntries cs + ws.length := by
  induction ws with
  | nil => intro cs _ _; simp [applyWrites]
  | cons w ws ih =>
    intro cs habs hpw
    obtain ⟨hw, hpw2⟩ := List.pairwise_cons.mp hpw
    rw [applyWrites]
    rw [ih (cachePut cs w.1 w.2.1 w.2.2) ?_ hpw2]
    · rw [totalEntries_cachePut, habs w (List.mem_cons_self w ws)]
      simp only [Bool.false_eq_true, if_false, List.length_cons]
      omega
    · intro w2 hw2
      rw [entryPresent_cachePut, habs w2 (List.mem_cons_of_mem w hw2)]
      rcases hw w2 hw2 with h | h <;> simp [h]

theorem addAllResult_ok_of (net : Net) :
    ∀ us : List String, (∀ u ∈ us, fetchedOk net u = true) →
      ∃ es, addAllResult net us = .ok es := by
  intro us
  induction us with
  | nil => intro _; exact ⟨[], rfl⟩
  | cons u us ih =>
    intro h
    have hu := h u (List.mem_cons_self u us)
    obtain ⟨es, hes⟩ := ih (fun v hv => h v (List.mem_cons_of_mem u hv))
    unfold fetchedOk at hu
    cases hn : net u with
    | error e => rw [hn] at hu; simp at hu
    | ok r =>
      rw [hn] at hu
      simp only [] at hu
      exact ⟨(u, r) :: es, by simp [addAllResult, hn, hu, hes]⟩

theorem addAllResult_not_ok (net : Net) {u e : String} :
    ∀ us : List String, u ∈ us → net u = .error e →
      ∀ es, addAllResult net us ≠ .ok es := by
  intro us
  induction us with
  | nil => intro hm; exact absurd hm (List.not_mem_nil u)
  | cons v us ih =>
    intro hm he es
    rcases List.mem_cons.mp hm with h | h
    · subst h
      simp [addAllResult, he]
    · unfold addAllResult
      cases hn : net v with
      | error e2 => simp
      | ok r =>
        by_cases hok : r.ok
        · cases ha : addAllResult net us with
          | ok es2 => exact absurd ha (ih h he es2)
          | error e2 => simp [hok, ha]
        · simp [hok]

theorem installRun_completes (net : Net) (cs : CacheStorage)
    (h : ∀ u ∈ basicFiles, fetchedOk net u = true) :
    (installRun net cs).2 = true := by
  obtain ⟨es, hes⟩ := addAllResult_ok_of net basicFiles h
  simp [installRun, hes]

theorem installRun_aborts (net : Net) (cs : CacheStorage) (u e : String)
    (hm : u ∈ basicFiles) (he : net u = .error e) :
    (installRun net cs).2 = false := by
  unfold installRun
  cases h0 : addAllResult net basicFiles with
  | ok es => exact absurd h0 (addAllResult_not_ok net basicFiles hm he es)
  | error e2 => simp [h0]

/-! Claim theorems. -/

/-- C1 counterexample: a same-origin GET request whose key is absent from
the static partition but present in the dynamic partition is answered from
the cache with zero network fetches and an unchanged universe, while the
claim demands a network fetch and a store into the static partition. -/
theorem C1_counterexample :
    cacheMatchIn c1Store STATIC_CACHE_NAME c1Req.url = none
    ∧ handleFetch appOrigin okNet c1Store c1Req
        = (.responded (some staleResp), c1Store, []) := by
  exact ⟨by decide, by decide⟩

/-- C1 (amended): for every same-origin GET http request, if any partition
of the universe contains an entry for the key, the cache-first path
returns the first such entry immediately with zero network calls and no
revalidation; if no partition contains one, it fetches from the network
and, on an ok response, stores it in the static partition and returns
it. -/
theorem C1_cache_first_amended (so : String) (net : Net) (cs : CacheStorage)
    (req : Request) (hm : req.method = "GET")
    (hh : strStarts req.url ("http") = true) (ho : req.origin = so) :
    (∀ r, cachesMatch cs req.url = some r →
        handleFetch so net cs req = (.responded (some r), cs, []))
    ∧ (∀ nr, cachesMatch cs req.url = none → net req.url = .ok nr → nr.ok = true →
        handleFetch so net cs req
          = (.responded (some nr),
             cachePut (cacheOpen cs STATIC_CACHE_NAME) STATIC_CACHE_NAME req.url nr,
             [req.url])
        ∧ cacheMatchIn (handleFetch so net cs req).2.1 STATIC_CACHE_NAME req.url
            = some nr) := by
  constructor
  · intro r hr
    simp [handleFetch, hm, hh, ho, cacheFirstStrategy, hr]
  · intro nr hmiss hnet hok
    have h1 : handleFetch so net cs req
        = (.responded (some nr),
           cachePut (cacheOpen cs STATIC_CACHE_NAME) STATIC_CACHE_NAME req.url nr,
           [req.url]) := by
      simp [handleFetch, hm, hh, ho, cacheFirstStrategy, hmiss, hnet, hok]
    refine ⟨h1, ?_⟩
    rw [h1]
    exact cacheMatchIn_cachePut_self (cacheOpen cs STATIC_CACHE_NAME) _ req.url nr

/-- C1 witness: a cache hit answered with zero fetches, and a miss on the
empty universe fetched and stored into the static partition. -/
theorem C1_witness :
    handleFetch appOrigin okNet c1Store c1Req = (.responded (some staleResp), c1Store, [])
    ∧ cacheMatchIn (handleFetch appOrigin okNet [] c1Req).2.1 STATIC_CACHE_NAME c1Req.url
        = some freshResp :=
  ⟨(C1_cache_first_amended appOrigin okNet c1Store c1Req rfl (by decide) rfl).1
      staleResp (by decide),
   ((C1_cache_first_amended appOrigin okNet [] c1Req rfl (by decide) rfl).2
      freshResp (by decide) rfl (by decide)).2⟩

/-- C2: a GET request to an allow-listed external origin whose key has a
dynamic-partition entry is answered with that entry whatever the network
does, a refresh fetch is issued, and on an ok refresh the entry reflects
the new value on the next lookup while a failed refresh leaves the
universe unchanged. -/
theorem C2_stale_while_revalidate (so : String) (net : Net) (cs : CacheStorage)
    (req : Request) (c : Response)
    (hm : req.method = "GET") (hh : strStarts req.url ("http") = true)
    (ho : req.origin ≠ so) (hc : isCDNResource req.hostname = true)
    (he : cacheMatchIn cs DYNAMIC_CACHE_NAME req.url = some c) :
    (handleFetch so net cs req).1 = .responded (some c)
    ∧ (handleFetch so net cs req).2.2 = [req.url]
    ∧ (match net req.url with
       | .ok nr =>
         cacheMatchIn (handleFetch so net cs req).2.1 DYNAMIC_CACHE_NAME req.url
           = (if nr.ok then some nr else some c)
       | .error _ => (handleFetch so net cs req).2.1 = cs) := by
  have hopen : cacheOpen cs DYNAMIC_CACHE_NAME = cs :=
    cacheOpen_of_has (hasPartition_of_matchIn he)
  cases hn : net req.url with
  | ok nr =>
    by_cases hok : nr.ok
    · refine ⟨?_, ?_, ?_⟩ <;>
        simp [handleFetch, hm, hh, ho, hc, staleWhileRevalidateStrategy, hopen, he,
          hn, hok, cacheMatchIn_cachePut_self]
    · refine ⟨?_, ?_, ?_⟩ <;>
        simp [handleFetch, hm, hh, ho, hc, staleWhileRevalidateStrategy, hopen, he,
          hn, hok]
  | error e =>
    refine ⟨?_, ?_, ?_⟩ <;>
      simp [handleFetch, hm, hh, ho, hc, staleWhileRevalidateStrategy, hopen, he, hn]

/-- C2 witness at a concrete CDN request: the stale entry is delivered, a
refresh is issued, and the refreshed value is seen by the next lookup. -/
theorem C2_witness :
    (handleFetch appOrigin okNet c2Store c2Req).1 = .responded (some staleResp)
    ∧ (handleFetch appOrigin okNet c2Store c2Req).2.2 = [c2Req.url]
    ∧ cacheMatchIn (handleFetch appOrigin okNet c2Store c2Req).2.1
        DYNAMIC_CACHE_NAME c2Req.url = some freshResp := by
  have h := C2_stale_while_revalidate appOrigin okNet c2Store c2Req staleResp
    rfl (by decide) (by decide) (by decide) (by decide)
  exact ⟨h.1, h.2.1, h.2.2⟩

/-- C3: a stale-while-revalidate request with no dynamic-partition entry
delivers the eventual network outcome to the caller: the network response
when the fetch resolves, and no response at all when the fetch rejects. -/
theorem C3_swr_no_entry (net : Net) (cs : CacheStorage) (req : Request)
    (he : cacheMatchIn cs DYNAMIC_CACHE_NAME req.url = none) :
    (staleWhileRevalidateStrategy net cs req).response
      = (match net req.url with
         | .ok nr => some nr
         | .error _ => none) := by
  have h0 : cacheMatchIn (cacheOpen cs DYNAMIC_CACHE_NAME) DYNAMIC_CACHE_NAME req.url
      = none := by rw [cacheMatchIn_open]; exact he
  cases hn : net req.url with
  | ok nr => simp [staleWhileRevalidateStrategy, h0, hn]
  | error e => simp [staleWhileRevalidateStrategy, h0, hn]

/-- C3 witness: on a cold dynamic partition the caller receives the network
failure as an absent response, and the network response on success. -/
theorem C3_witness :
    (staleWhileRevalidateStrategy downNet c3Store c2Req).response = none
    ∧ (staleWhileRevalidateStrategy okNet c3Store c2Req).response = some freshResp :=
  ⟨C3_swr_no_entry downNet c3Store c2Req (by decide),
   C3_swr_no_entry okNet c3Store c2Req (by decide)⟩

/-- C4 counterexample: a network-first request whose fetch rejects and
whose key is absent from the dynamic partition is answered with the static
partition entry instead of the synthesized 503 the claim demands. -/
theorem C4_counterexample :
    cacheMatchIn c4Store DYNAMIC_CACHE_NAME c4Req.url = none
    ∧ (networkFirstStrategy downNet c4Store c4Req).response = some staleResp
    ∧ staleResp ≠ offlineResponse := by
  exact ⟨by decide, by decide, by decide⟩

/-- C4 (amended): when the network-first fetch rejects, the fallback
lookup searches every partition: the first matching entry anywhere in the
universe is returned rather than an error, and the synthesized 503 with
the fixed status text is returned only when no partition holds an entry
for the key. -/
theorem C4_network_first_fallback_amended (net : Net) (cs : CacheStorage)
    (req : Request) (e : String) (hf : net req.url = .error e) :
    (∀ c, cachesMatch cs req.url = some c →
        networkFirstStrategy net cs req = ⟨some c, cs, [req.url]⟩)
    ∧ (cachesMatch cs req.url = none →
        networkFirstStrategy net cs req = ⟨some offlineResponse, cs, [req.url]⟩) := by
  constructor
  · intro c hc
    simp [networkFirstStrategy, hf, hc]
  · intro hmiss
    simp [networkFirstStrategy, hf, hmiss]

/-- C4 witness: the rejected fetch falls back to the static-partition
entry, and on an empty universe to the synthesized 503. -/
theorem C4_witness :
    networkFirstStrategy downNet c4Store c4Req = ⟨some staleResp, c4Store, [c4Req.url]⟩
    ∧ networkFirstStrategy downNet [] c4Req = ⟨some offlineResponse, [], [c4Req.url]⟩ :=
  ⟨(C4_network_first_fallback_amended downNet c4Store c4Req "network down" rfl).1
      staleResp (by decide),
   (C4_network_first_fallback_amended downNet [] c4Req "network down" rfl).2 (by decide)⟩

/-- C5 counterexample: against the existing partition set of the two
current names plus other-cache, the cleanup deletes nothing at all, while
the claim demands that exactly the partition named other-cache be
deleted. -/
theorem C5_counterexample :
    activateDeleted ["finance-static-v3.0.0", "finance-dynamic-v3.0.0", "other-cache"] = []
    ∧ "other-cache" ≠ STATIC_CACHE_NAME ∧ "other-cache" ≠ DYNAMIC_CACHE_NAME := by
  exact ⟨by decide, by decide, by decide⟩

/-- C5 (amended): the activate cleanup deletes exactly those extant
partitions whose names start with the finance- prefix and differ from both
current partition names; partitions outside the finance- prefix survive
even when they are not current, and the current partitions always
survive. -/
theorem C5_activate_cleanup_amended :
    (∀ (names : List String) (n : String),
      n ∈ activateDeleted names
        ↔ n ∈ names ∧ strStarts n ("finance-") = true
            ∧ n ≠ STATIC_CACHE_NAME ∧ n ≠ DYNAMIC_CACHE_NAME)
    ∧ (∀ (cs : CacheStorage) (c : String × Partition),
      c ∈ activateRun cs
        ↔ c ∈ cs ∧ (strStarts c.1 ("finance-") = false
            ∨ c.1 = STATIC_CACHE_NAME ∨ c.1 = DYNAMIC_CACHE_NAME)) := by
  constructor
  · intro names n
    simp [activateDeleted, isStaleName, List.mem_filter, and_assoc]
  · intro cs c
    simp only [activateRun, List.mem_filter, Bool.not_eq_true', isStaleName]
    constructor
    · rintro ⟨hmem, hb⟩
      refine ⟨hmem, ?_⟩
      rcases Bool.and_eq_false_iff.mp hb with h | h
      · rcases Bool.and_eq_false_iff.mp h with h2 | h2
        · exact Or.inl h2
        · exact Or.inr (Or.inl (by simpa using h2))
      · exact Or.inr (Or.inr (by simpa using h))
    · rintro ⟨hmem, hd⟩
      refine ⟨hmem, ?_⟩
      rcases hd with h | h | h
      · simp [h]
      · simp [h, STATIC_CACHE_NAME]
      · simp [h, DYNAMIC_CACHE_NAME]

/-- C5 witness: a superseded finance- partition is deleted, while the
current static partition and a foreign partition survive. -/
theorem C5_witness :
    "finance-dashboard-v3.0.0"
        ∈ activateDeleted ["finance-dashboard-v3.0.0", "other-cache"]
    ∧ ("other-cache", ([] : Partition))
        ∈ activateRun [("other-cache", ([] : Partition))] :=
  ⟨(C5_activate_cleanup_amended.1 ["finance-dashboard-v3.0.0", "other-cache"]
      "finance-dashboard-v3.0.0").mpr ⟨by decide, by decide, by decide, by decide⟩,
   (C5_activate_cleanup_amended.2 [("other-cache", [])] ("other-cache", [])).mpr
      ⟨by decide, Or.inl (by decide)⟩⟩

/-- C6 counterexample: a network on which the fetch of the local asset /
rejects makes cache.addAll reject, so the install run does not reach
skipWaiting, while the claim demands that installation still complete and
signal readiness. -/
theorem C6_counterexample :
    ("/" ∈ basicFiles) ∧ badBasicNet "/" = .error "offline"
    ∧ (installRun badBasicNet []).2 = false :=
  ⟨by decide, rfl, installRun_aborts badBasicNet [] "/" "offline" (by decide) rfl⟩

/-- C6 (amended): fetch failures among the external CDN resources are
best-effort and never prevent the install run from signaling readiness,
but a rejected fetch of any of the three pre-populated local static assets
makes cache.addAll reject and the install run does not signal readiness to
supersede the waiting instance. -/
theorem C6_install_amended :
    (∀ (net : Net) (cs : CacheStorage),
        (∀ u ∈ basicFiles, fetchedOk net u = true) → (installRun net cs).2 = true)
    ∧ (∀ (net : Net) (cs : CacheStorage) (u e : String),
        u ∈ basicFiles → net u = .error e → (installRun net cs).2 = false) :=
  ⟨fun net cs h => installRun_completes net cs h,
   fun net cs u e hm he => installRun_aborts net cs u e hm he⟩

/-- C6 witness: with every CDN fetch rejecting the install still signals
readiness, and with the fetch of / rejecting it does not. -/
theorem C6_witness :
    (installRun badCdnNet []).2 = true ∧ (installRun badBasicNet []).2 = false :=
  ⟨C6_install_amended.1 badCdnNet [] (by decide),
   C6_install_amended.2 badBasicNet [] "/" "offline" (by decide) rfl⟩

/-- C7: a request that is not GET or whose URL is not http(s) is not
intercepted: the handler passes it through, issues no fetch and leaves the
cache universe unchanged. -/
theorem C7_passthrough (so : String) (net : Net) (cs : CacheStorage) (req : Request)
    (h : req.method ≠ "GET" ∨ strStarts req.url ("http") = false) :
    handleFetch so net cs req = (.passthrough, cs, []) := by
  unfold handleFetch
  rcases h with h | h
  · simp [h]
  · simp [h]

/-- C7 witness: a POST request passes through with no caching side
effect. -/
theorem C7_witness :
    c7Req.method ≠ "GET"
    ∧ handleFetch appOrigin okNet c1Store c7Req = (.passthrough, c1Store, []) :=
  ⟨by decide, C7_passthrough appOrigin okNet c1Store c7Req (Or.inl (by decide))⟩

/-- C8 counterexample: a synchronization run that completes with zero
pending records broadcasts nothing at all: the connected client receives
no SYNC_COMPLETE message with count zero, while the claim demands a
broadcast on every completed run. -/
theorem C8_counterexample :
    ("client1", ClientMessage.mk "SYNC_COMPLETE" 0)
        ∉ syncTransactions ([] : List Nat) ["client1"]
    ∧ syncTransactions ([] : List Nat) ["client1"] = [] := by
  exact ⟨by decide, by decide⟩

/-- C8 (amended): a completed synchronization run broadcasts a
SYNC_COMPLETE message carrying the number of pending records to every
connected foreground context exactly when at least one pending record was
retrieved; with zero pending records nothing is posted. -/
theorem C8_sync_broadcast_amended {α : Type} (pending : List α)
    (clients : List String) :
    (pending ≠ [] →
      syncTransactions pending clients
        = clients.map (fun c => (c, ⟨"SYNC_COMPLETE", pending.length⟩)))
    ∧ (pending = [] → syncTransactions pending clients = []) := by
  constructor
  · intro h
    have hl : 0 < pending.length := List.length_pos.mpr h
    simp [syncTransactions, hl]
  · intro h
    subst h
    simp [syncTransactions]

/-- C8 witness: two pending records are announced to both clients with
count two, and zero pending records produce no message. -/
theorem C8_witness :
    syncTransactions [1, 2] ["c1", "c2"]
      = [("c1", ⟨"SYNC_COMPLETE", 2⟩), ("c2", ⟨"SYNC_COMPLETE", 2⟩)]
    ∧ syncTransactions ([] : List Nat) ["c1"] = [] :=
  ⟨(C8_sync_broadcast_amended [1, 2] ["c1", "c2"]).1 (by decide),
   (C8_sync_broadcast_amended ([] : List Nat) ["c1"]).2 rfl⟩

/-- C9: the cache status reply counts the partitions and sums the entry
counts over all partitions, an empty universe yields zero and zero,
writing pairwise distinct entries from the empty universe yields a size
equal to the number of writes, and an internal failure is returned as an
error envelope rather than thrown. -/
theorem C9_cache_status :
    (∀ now, getCacheStatus (.ok []) now = .status 0 0 now)
    ∧ (∀ (cs : CacheStorage) (now : String),
        getCacheStatus (.ok cs) now = .status cs.length (totalEntries cs) now)
    ∧ (∀ (ws : List (String × String × Response)) (now : String),
        ws.Pairwise (fun a b => a.1 ≠ b.1 ∨ a.2.1 ≠ b.2.1) →
        getCacheStatus (.ok (applyWrites [] ws)) now
          = .status (applyWrites [] ws).length ws.length now)
    ∧ (∀ (m now : String), getCacheStatus (.error m) now = .failure m) := by
  refine ⟨fun now => rfl, fun cs now => rfl, ?_, fun m now => rfl⟩
  intro ws now hpw
  have habs : ∀ w ∈ ws, entryPresent ([] : CacheStorage) w.1 w.2.1 = false := by
    intro w _
    simp [entryPresent, cacheMatchIn, lookupPartition]
  have h := totalEntries_applyWrites ws [] habs hpw
  have h0 : totalEntries ([] : CacheStorage) = 0 := rfl
  rw [getCacheStatus, h, h0]
  simp

/-- C9 witness: two distinct writes across the two partitions yield size
two, and a failing computation yields the error envelope. -/
theorem C9_witness :
    getCacheStatus (.ok (applyWrites [] c9Writes)) "t0"
      = .status (applyWrites [] c9Writes).length 2 "t0"
    ∧ getCacheStatus (.error "boom") "t0" = .failure "boom" :=
  ⟨C9_cache_status.2.2.1 c9Writes "t0" (by decide), C9_cache_status.2.2.2 "boom" "t0"⟩

/-- C10: when the network-first fetch rejects, the fallback lookup matches
entries in every partition of the universe, so an entry stored for the key
in the static partition or any other partition is returned and the
universe is left unchanged. -/
theorem C10_network_first_matches_all_partitions (net : Net) (cs : CacheStorage)
    (req : Request) (e : String) (c : Response)
    (hf : net req.url = .error e) (hc : cachesMatch cs req.url = some c) :
    (networkFirstStrategy net cs req).response = some c
    ∧ (networkFirstStrategy net cs req).store = cs := by
  unfold networkFirstStrategy
  simp [hf, hc]

/-- C10 witness: a universe holding the key only in the static partition
serves that entry as the network-first fallback. -/
theorem C10_witness :
    cacheMatchIn c10Store STATIC_CACHE_NAME c10Req.url = some staleResp
    ∧ (networkFirstStrategy downNet c10Store c10Req).response = some staleResp :=
  ⟨by decide,
   (C10_network_first_matches_all_partitions downNet c10Store c10Req
      "network down" staleResp rfl (by decide)).1⟩

end SW
